import Mathlib

/-!
Shallow embedding of the to-do storage layer (`src/agent/storage.py`) of the
todo-agent repository, together with theorems settling the specification
claims about it.

Modelling conventions:
- Timestamps are opaque strings; the wall clock (`datetime.now(...)`)
  is passed in explicitly as a `now : String` argument.
- `TodoStatus` is a `str`-valued enumeration in the source, so an item's
  `status` field is modelled as a `String`; `TodoStatus.ofString?` embeds the
  `TodoStatus(s)` constructor call (which raises `ValueError` on a string
  outside the enumeration). Pydantic's `model_copy(update=...)` and plain
  attribute assignment do not validate, which is why a `status` field can
  hold an arbitrary string after an update.
- The JSON backing file is modelled as a `List TodoRecord`: the list of
  JSON objects stored in the file, each with exactly the entity's keys.
- Fallible operations (those that re-parse the backing file and can hit a
  pydantic `ValidationError` on load) return `Except String`.
-/

/-- The `TodoStatus` enumeration (`storage.py` lines 24-31). Its members are
their string values, since the enum inherits from `str`. -/
inductive TodoStatus where
  | notStarted
  | inProgress
  | completed
  deriving DecidableEq, Repr

/-- The string value of a `TodoStatus` member. -/
def TodoStatus.value : TodoStatus → String
  | .notStarted => "Not Started"
  | .inProgress => "In Progress"
  | .completed => "Completed"

/-- `TodoStatus(s)`: the enum constructor call, `none` when the call raises
`ValueError` because `s` is outside the enumeration. -/
def TodoStatus.ofString? (s : String) : Option TodoStatus :=
  if s = "Not Started" then some .notStarted
  else if s = "In Progress" then some .inProgress
  else if s = "Completed" then some .completed
  else none

/-- A live `TodoItem` object (`storage.py` lines 33-41). `status` is a
string because the enum is string-valued and unvalidated assignments can
store arbitrary strings in it. -/
structure TodoItem where
  id : Int
  name : String
  description : Option String
  project : Option String
  status : String
  created_at : String
  updated_at : String
  deriving DecidableEq, Repr

/-- One JSON object of the backing file: the shape produced by
`item.model_dump()` and consumed by `TodoItem(**item)`. -/
structure TodoRecord where
  id : Int
  name : String
  description : Option String
  project : Option String
  status : String
  created_at : String
  updated_at : String
  deriving DecidableEq, Repr

/-- `item.model_dump()`: serialize a live item to its JSON object. -/
def TodoItem.model_dump (t : TodoItem) : TodoRecord :=
  { id := t.id, name := t.name, description := t.description,
    project := t.project, status := t.status,
    created_at := t.created_at, updated_at := t.updated_at }

/-- `TodoItem(**item)`: pydantic validation of a JSON object. On a record of
this shape the only check that can fail is that `status` must be a member of
the enumeration; `name` is only required to be a string, so the empty string
passes. -/
def TodoItem.validate (r : TodoRecord) : Except String TodoItem :=
  match TodoStatus.ofString? r.status with
  | some _ =>
      .ok { id := r.id, name := r.name, description := r.description,
            project := r.project, status := r.status,
            created_at := r.created_at, updated_at := r.updated_at }
  | none => .error ("ValidationError: invalid status " ++ r.status)

/-- The `update_data` dictionary passed to `update`: for each entity field,
`none` means the key is absent and `some v` means the key is present with
value `v`. For the `Optional` fields `description` and `project`, a present
key may carry JSON null (`some none`). The `updated_at` key is listed for
completeness: the source overwrites it with `now` before applying. -/
structure UpdateData where
  id : Option Int := none
  name : Option String := none
  description : Option (Option String) := none
  project : Option (Option String) := none
  status : Option String := none
  created_at : Option String := none
  updated_at : Option String := none
  deriving DecidableEq, Repr

/-- The net effect on one item of `update_data["status"]` conversion,
`update_data["updated_at"] = now`, and `model_copy(update=update_data)`
(file variant, lines 144-154) or the `setattr` loop plus timestamp stamp
(memory variant, lines 214-227). Both bypass pydantic validation, so every
present key overwrites the field, `id` and `created_at` included; the
`status` try/except converts a valid string to the enum member carrying the
same string value and leaves an invalid string as-is, so on strings it is
the identity. `updated_at` is unconditionally set to `now`. -/
def applyUpdate (t : TodoItem) (u : UpdateData) (now : String) : TodoItem :=
  { id := u.id.getD t.id,
    name := u.name.getD t.name,
    description := u.description.getD t.description,
    project := u.project.getD t.project,
    status := u.status.getD t.status,
    created_at := u.created_at.getD t.created_at,
    updated_at := now }

/-- Python's `str.lower()`: lower-case every character of the string. -/
def strLower (s : String) : String :=
  ⟨s.data.map Char.toLower⟩

/-- The shared body of `read_by_project` in both variants (lines 135 and
207): `[t for t in todos if t.project and t.project.lower() == project.lower()]`.
A `None` project and an empty-string project are both falsy in Python, so
both are excluded before the case-insensitive comparison. -/
def filterByProject (todos : List TodoItem) (project : String) : List TodoItem :=
  todos.filter fun t =>
    match t.project with
    | some s => !(s = "") && (strLower s = strLower project)
    | none => false

/-- Find the first item with the given id, apply the update to it, and
return the updated item together with the list with that position replaced:
the body of the `for i, item in enumerate(todos)` loop of
`JsonTodoStorage.update` (lines 142-157). -/
def updateFirst (todos : List TodoItem) (item_id : Int) (u : UpdateData)
    (now : String) : Option (TodoItem × List TodoItem) :=
  match todos with
  | [] => none
  | t :: ts =>
      if t.id = item_id then
        some (applyUpdate t u now, applyUpdate t u now :: ts)
      else
        (updateFirst ts item_id u now).map fun p => (p.1, t :: p.2)

namespace JsonTodoStorage

/-- `_load_todos` (lines 91-95): parse every record of the backing file with
pydantic, left to right; the first invalid record raises `ValidationError`. -/
def _load_todos : List TodoRecord → Except String (List TodoItem)
  | [] => .ok []
  | r :: rs => do
      let t ← TodoItem.validate r
      let ts ← _load_todos rs
      pure (t :: ts)

/-- `_save_todos` (lines 97-100): overwrite the file with the dump of every
item. -/
def _save_todos (todos : List TodoItem) : List TodoRecord :=
  todos.map TodoItem.model_dump

/-- `max([t.id for t in todos], default=0)`: Python's `max` of the id list,
or the default `0` when the list is empty. -/
def maxId (todos : List TodoItem) : Int :=
  match todos.map TodoItem.id with
  | [] => 0
  | x :: xs => xs.foldl max x

/-- `_get_next_id` (lines 102-104). -/
def _get_next_id (todos : List TodoItem) : Int :=
  maxId todos + 1

/-- `create` (lines 106-120): load, build the new item (with the default
status `"Not Started"` and both timestamps set to `now`), append, save.
There is no emptiness check on `name`. -/
def create (file : List TodoRecord) (name : String)
    (description project : Option String) (now : String) :
    Except String (TodoItem × List TodoRecord) := do
  let todos ← _load_todos file
  let new_item : TodoItem :=
    { id := _get_next_id todos, name := name, description := description,
      project := project, status := TodoStatus.notStarted.value,
      created_at := now, updated_at := now }
  pure (new_item, _save_todos (todos ++ [new_item]))

/-- `read_all` (lines 122-124). -/
def read_all (file : List TodoRecord) : Except String (List TodoItem) :=
  _load_todos file

/-- `read_by_id` (lines 126-129): `next((t for t in todos if t.id == item_id), None)`. -/
def read_by_id (file : List TodoRecord) (item_id : Int) :
    Except String (Option TodoItem) := do
  let todos ← read_all file
  pure (todos.find? fun t => t.id = item_id)

/-- `read_by_project` (lines 131-135). -/
def read_by_project (file : List TodoRecord) (project : String) :
    Except String (List TodoItem) := do
  let todos ← read_all file
  pure (filterByProject todos project)

/-- `update` (lines 137-159). On a match the whole list, with the matched
position replaced, is saved; on no match nothing is written and `None` is
returned. -/
def update (file : List TodoRecord) (item_id : Int) (u : UpdateData)
    (now : String) : Except String (Option TodoItem × List TodoRecord) := do
  let todos ← read_all file
  match updateFirst todos item_id u now with
  | some (item, todos') => pure (some item, _save_todos todos')
  | none => pure (none, file)

/-- `delete` (lines 161-171): filter out the id; write back only when the
length shrank, and report whether it did. -/
def delete (file : List TodoRecord) (item_id : Int) :
    Except String (Bool × List TodoRecord) := do
  let todos ← _load_todos file
  let new_todos := todos.filter fun t => !(t.id = item_id)
  if new_todos.length = todos.length then
    pure (false, file)
  else
    pure (true, _save_todos new_todos)

end JsonTodoStorage

/-- The in-memory variant's state (`storage.py` lines 174-178): the item
list and the monotone id counter. -/
structure InMemoryTodoStorage where
  todos : List TodoItem
  next_id : Int
  deriving DecidableEq, Repr

namespace InMemoryTodoStorage

/-- `InMemoryTodoStorage()` (lines 176-178). -/
def init : InMemoryTodoStorage :=
  { todos := [], next_id := 1 }

/-- `_get_next_id` (lines 180-184): return the counter and increment it. -/
def _get_next_id (st : InMemoryTodoStorage) : Int × InMemoryTodoStorage :=
  (st.next_id, { st with next_id := st.next_id + 1 })

/-- `create` (lines 186-197): no emptiness check on `name`, never fails. -/
def create (st : InMemoryTodoStorage) (name : String)
    (description project : Option String) (now : String) :
    TodoItem × InMemoryTodoStorage :=
  let (i, st') := st._get_next_id
  let new_item : TodoItem :=
    { id := i, name := name, description := description, project := project,
      status := TodoStatus.notStarted.value, created_at := now,
      updated_at := now }
  (new_item, { st' with todos := st'.todos ++ [new_item] })

/-- `read_all` (lines 199-200). -/
def read_all (st : InMemoryTodoStorage) : List TodoItem :=
  st.todos

/-- `read_by_id` (lines 202-203). -/
def read_by_id (st : InMemoryTodoStorage) (item_id : Int) : Option TodoItem :=
  st.todos.find? fun t => t.id = item_id

/-- `read_by_project` (lines 205-207). -/
def read_by_project (st : InMemoryTodoStorage) (project : String) : List TodoItem :=
  filterByProject st.todos project

/-- `update` (lines 209-228): mutate the first item with the id in place
(the `setattr` loop touches every present key whose name is an attribute of
the item, `id` and `created_at` included) and stamp `updated_at`. -/
def update (st : InMemoryTodoStorage) (item_id : Int) (u : UpdateData)
    (now : String) : Option TodoItem × InMemoryTodoStorage :=
  match updateFirst st.todos item_id u now with
  | some (item, todos') => (some item, { st with todos := todos' })
  | none => (none, st)

/-- `delete` (lines 230-233). -/
def delete (st : InMemoryTodoStorage) (item_id : Int) :
    Bool × InMemoryTodoStorage :=
  let new_todos := st.todos.filter fun t => !(t.id = item_id)
  (decide (new_todos.length < st.todos.length), { st with todos := new_todos })

end InMemoryTodoStorage

/-- The id list of a collection of live items. -/
def idsOf (todos : List TodoItem) : List Int :=
  todos.map TodoItem.id

/-- One mutating storage call, for reasoning about reachable states. -/
inductive Op where
  | createOp (name : String) (description project : Option String) (now : String)
  | updateOp (item_id : Int) (u : UpdateData) (now : String)
  | deleteOp (item_id : Int)
  deriving DecidableEq, Repr

/-- An update payload without an `id` key (create and delete trivially
carry no `id` key). -/
def Op.noIdKey : Op → Bool
  | .updateOp _ u _ => u.id.isNone
  | _ => true

/-- Run one mutating call against the in-memory store, keeping the
resulting state. -/
def InMemoryTodoStorage.execOp (st : InMemoryTodoStorage) : Op → InMemoryTodoStorage
  | .createOp n d p now => (st.create n d p now).2
  | .updateOp i u now => (st.update i u now).2
  | .deleteOp i => (st.delete i).2

/-- Run a sequence of mutating calls against the in-memory store. -/
def InMemoryTodoStorage.execOps (st : InMemoryTodoStorage) (ops : List Op) :
    InMemoryTodoStorage :=
  ops.foldl InMemoryTodoStorage.execOp st

/-- Run one mutating call against the backing file. A call that raises
(load failure) leaves the file as it was: every write happens after the
initial load. -/
def JsonTodoStorage.execOp (file : List TodoRecord) : Op → List TodoRecord
  | .createOp n d p now =>
      match JsonTodoStorage.create file n d p now with
      | .ok r => r.2
      | .error _ => file
  | .updateOp i u now =>
      match JsonTodoStorage.update file i u now with
      | .ok r => r.2
      | .error _ => file
  | .deleteOp i =>
      match JsonTodoStorage.delete file i with
      | .ok r => r.2
      | .error _ => file

/-- Run a sequence of mutating calls against the backing file. -/
def JsonTodoStorage.execOps (file : List TodoRecord) (ops : List Op) :
    List TodoRecord :=
  ops.foldl JsonTodoStorage.execOp file

/-- Invariant of the in-memory store: every live id is below the counter
and the live ids are pairwise distinct. -/
def memInv (st : InMemoryTodoStorage) : Prop :=
  (∀ i ∈ idsOf st.todos, i < st.next_id) ∧ (idsOf st.todos).Nodup

/-- Invariant of the backing file: the stored ids are pairwise distinct. -/
def jsonInv (file : List TodoRecord) : Prop :=
  (file.map TodoRecord.id).Nodup

/-! ### Helper lemmas -/

theorem TodoItem.validate_dump_of_ok {r : TodoRecord} {t : TodoItem}
    (h : TodoItem.validate r = .ok t) : t.model_dump = r := by
  unfold TodoItem.validate at h
  cases hs : TodoStatus.ofString? r.status with
  | some s => rw [hs] at h; cases h; rfl
  | none => rw [hs] at h; cases h

theorem TodoItem.validate_status_of_ok {r : TodoRecord} {t : TodoItem}
    (h : TodoItem.validate r = .ok t) : (TodoStatus.ofString? t.status).isSome := by
  unfold TodoItem.validate at h
  cases hs : TodoStatus.ofString? r.status with
  | some s => rw [hs] at h; cases h; simp [hs]
  | none => rw [hs] at h; cases h

theorem TodoItem.validate_model_dump {t : TodoItem}
    (h : (TodoStatus.ofString? t.status).isSome) :
    TodoItem.validate t.model_dump = .ok t := by
  unfold TodoItem.validate TodoItem.model_dump
  cases hs : TodoStatus.ofString? t.status with
  | some s => rfl
  | none => rw [hs] at h; cases h

namespace JsonTodoStorage

theorem _load_todos_statuses {file : List TodoRecord} {todos : List TodoItem}
    (h : _load_todos file = .ok todos) :
    ∀ t ∈ todos, (TodoStatus.ofString? t.status).isSome := by
  induction file generalizing todos with
  | nil => cases h; intro t ht; cases ht
  | cons r rs ih =>
      unfold _load_todos at h
      cases hv : TodoItem.validate r with
      | error e => rw [hv] at h; cases h
      | ok t =>
          rw [hv] at h
          cases hl : _load_todos rs with
          | error e => rw [hl] at h; cases h
          | ok ts =>
              rw [hl] at h
              cases h
              intro x hx
              cases hx with
              | head => exact TodoItem.validate_status_of_ok hv
              | tail _ hmem => exact ih hl x hmem

theorem _save_todos_of_load {file : List TodoRecord} {todos : List TodoItem}
    (h : _load_todos file = .ok todos) : _save_todos todos = file := by
  induction file generalizing todos with
  | nil => cases h; rfl
  | cons r rs ih =>
      unfold _load_todos at h
      cases hv : TodoItem.validate r with
      | error e => rw [hv] at h; cases h
      | ok t =>
          rw [hv] at h
          cases hl : _load_todos rs with
          | error e => rw [hl] at h; cases h
          | ok ts =>
              rw [hl] at h
              cases h
              show t.model_dump :: _save_todos ts = r :: rs
              rw [TodoItem.validate_dump_of_ok hv, ih hl]

theorem _load_todos_save {todos : List TodoItem}
    (h : ∀ t ∈ todos, (TodoStatus.ofString? t.status).isSome) :
    _load_todos (_save_todos todos) = .ok todos := by
  induction todos with
  | nil => rfl
  | cons t ts ih =>
      show _load_todos (t.model_dump :: _save_todos ts) = _
      unfold _load_todos
      rw [TodoItem.validate_model_dump (h t (List.mem_cons_self t ts)),
        ih fun x hx => h x (List.mem_cons_of_mem t hx)]
      rfl

theorem idsOf_load {file : List TodoRecord} {todos : List TodoItem}
    (h : _load_todos file = .ok todos) :
    idsOf todos = file.map TodoRecord.id := by
  rw [← _save_todos_of_load h]
  unfold _save_todos idsOf
  rw [List.map_map]
  rfl

theorem le_maxId {todos : List TodoItem} {t : TodoItem} (h : t ∈ todos) :
    t.id ≤ maxId todos := by
  have k1 : ∀ (xs : List Int) (x : Int), x ≤ xs.foldl max x := by
    intro xs
    induction xs with
    | nil => intro x; exact le_refl x
    | cons z zs ih =>
        intro x
        exact le_trans (le_max_left x z) (ih (max x z))
  have k2 : ∀ (xs : List Int) (x y : Int), y ∈ xs → y ≤ xs.foldl max x := by
    intro xs
    induction xs with
    | nil => intro x y hy; cases hy
    | cons z zs ih =>
        intro x y hy
        rcases List.mem_cons.mp hy with rfl | hy'
        · exact le_trans (le_max_right x y) (k1 zs (max x y))
        · exact ih (max x z) y hy'
  have key : ∀ (x : Int) (xs : List Int) (y : Int), y ∈ x :: xs → y ≤ xs.foldl max x := by
    intro x xs y hy
    rcases List.mem_cons.mp hy with rfl | hy'
    · exact k1 xs y
    · exact k2 xs x y hy'
  unfold maxId
  have hmem : t.id ∈ todos.map TodoItem.id := List.mem_map_of_mem TodoItem.id h
  cases hl : todos.map TodoItem.id with
  | nil => rw [hl] at hmem; cases hmem
  | cons x xs => rw [hl] at hmem; exact key x xs t.id hmem

theorem _get_next_id_gt {todos : List TodoItem} {t : TodoItem} (h : t ∈ todos) :
    t.id < _get_next_id todos := by
  have := le_maxId h
  unfold _get_next_id
  omega

end JsonTodoStorage

theorem updateFirst_eq_none_iff {todos : List TodoItem} {i : Int}
    {u : UpdateData} {now : String} :
    updateFirst todos i u now = none ↔ ∀ t ∈ todos, t.id ≠ i := by
  induction todos with
  | nil => simp [updateFirst]
  | cons t ts ih =>
      by_cases h : t.id = i
      · simp [updateFirst, h]
      · simp [updateFirst, h, ih]

theorem updateFirst_of_find? {todos : List TodoItem} {i : Int} {t : TodoItem}
    (u : UpdateData) (now : String)
    (h : todos.find? (fun x => x.id = i) = some t) :
    ∃ todos', updateFirst todos i u now = some (applyUpdate t u now, todos') := by
  induction todos with
  | nil => cases h
  | cons x xs ih =>
      by_cases hx : x.id = i
      · rw [List.find?_cons_of_pos _ (by simpa using hx)] at h
        have hxt : x = t := Option.some.inj h
        subst hxt
        exact ⟨applyUpdate x u now :: xs, by simp [updateFirst, hx]⟩
      · rw [List.find?_cons_of_neg _ (by simpa using hx)] at h
        obtain ⟨ts', hts'⟩ := ih h
        exact ⟨x :: ts', by simp [updateFirst, hx, hts']⟩

theorem updateFirst_updated_at {todos : List TodoItem} {i : Int}
    {u : UpdateData} {now : String} {it : TodoItem} {todos' : List TodoItem}
    (h : updateFirst todos i u now = some (it, todos')) :
    it.updated_at = now := by
  induction todos generalizing it todos' with
  | nil => cases h
  | cons x xs ih =>
      rw [updateFirst] at h
      by_cases hx : x.id = i
      · rw [if_pos hx] at h
        cases h
        rfl
      · rw [if_neg hx] at h
        cases hrec : updateFirst xs i u now with
        | none => rw [hrec] at h; cases h
        | some p =>
            rw [hrec] at h
            have h' : (p.1, x :: p.2) = (it, todos') := Option.some.inj h
            have h1 : p.1 = it := congrArg Prod.fst h'
            have hrec' : updateFirst xs i u now = some (p.1, p.2) := by
              rw [hrec]
            rw [← h1]
            exact ih hrec'

theorem updateFirst_idsOf {todos : List TodoItem} {i : Int}
    {u : UpdateData} {now : String} {it : TodoItem} {todos' : List TodoItem}
    (hid : u.id = none) (h : updateFirst todos i u now = some (it, todos')) :
    idsOf todos' = idsOf todos := by
  induction todos generalizing it todos' with
  | nil => cases h
  | cons x xs ih =>
      rw [updateFirst] at h
      by_cases hx : x.id = i
      · rw [if_pos hx] at h
        cases h
        show (applyUpdate x u now).id :: idsOf xs = x.id :: idsOf xs
        simp [applyUpdate, hid]
      · rw [if_neg hx] at h
        cases hrec : updateFirst xs i u now with
        | none => rw [hrec] at h; cases h
        | some p =>
            rw [hrec] at h
            have h' : (p.1, x :: p.2) = (it, todos') := Option.some.inj h
            have h2 : x :: p.2 = todos' := congrArg Prod.snd h'
            have hrec' : updateFirst xs i u now = some (p.1, p.2) := by
              rw [hrec]
            rw [← h2]
            show x.id :: idsOf p.2 = x.id :: idsOf xs
            rw [ih hrec']

/-! ### C1: create with an empty name -/

/-- C1 counterexample: the claim says create with an empty name fails with a
`ValidationError` and adds nothing. In fact, on the empty store, both
variants accept the empty name and append an item carrying it: the
in-memory store grows to one item with name `""`, and the file-backed
variant returns the created item and writes it to the file. -/
theorem C1_counterexample :
    (InMemoryTodoStorage.init.create "" none none "t0").2.todos.length = 1 ∧
    (InMemoryTodoStorage.init.create "" none none "t0").1.name = "" ∧
    JsonTodoStorage.create [] "" none none "t0" =
      .ok ({ id := 1, name := "", description := none, project := none,
             status := "Not Started", created_at := "t0", updated_at := "t0" },
           [{ id := 1, name := "", description := none, project := none,
              status := "Not Started", created_at := "t0", updated_at := "t0" }]) :=
  ⟨rfl, rfl, rfl⟩

/-- C1 amended: for every description and project, calling create with an
empty name succeeds in both storage variants — no emptiness validation is
performed, and the item is appended to the collection with the empty name
(for the file-backed variant, whenever the backing file loads). -/
theorem C1_amended (st : InMemoryTodoStorage) (file : List TodoRecord)
    (todos : List TodoItem) (description project : Option String) (now : String)
    (hload : JsonTodoStorage._load_todos file = .ok todos) :
    ((st.create "" description project now).1.name = "" ∧
      (st.create "" description project now).2.todos =
        st.todos ++ [(st.create "" description project now).1]) ∧
    ∃ item, JsonTodoStorage.create file "" description project now =
        .ok (item, JsonTodoStorage._save_todos (todos ++ [item])) ∧
      item.name = "" := by
  refine ⟨⟨rfl, rfl⟩, ?_⟩
  refine ⟨{ id := JsonTodoStorage._get_next_id todos, name := "",
            description := description, project := project,
            status := TodoStatus.notStarted.value,
            created_at := now, updated_at := now }, ?_, rfl⟩
  unfold JsonTodoStorage.create
  rw [hload]
  rfl

/-- C1 witness: the amended theorem applied at the empty file and the
initial in-memory store. -/
theorem C1_witness :
    ((InMemoryTodoStorage.init.create "" none none "t0").1.name = "" ∧
      (InMemoryTodoStorage.init.create "" none none "t0").2.todos =
        InMemoryTodoStorage.init.todos ++
          [(InMemoryTodoStorage.init.create "" none none "t0").1]) ∧
    ∃ item, JsonTodoStorage.create [] "" none none "t0" =
        .ok (item, JsonTodoStorage._save_todos ([] ++ [item])) ∧
      item.name = "" :=
  C1_amended InMemoryTodoStorage.init [] [] none none "t0" rfl

/-! ### C2: update with a status outside the enumeration -/

/-- C2: the claim (and the source's own comments, `storage.py` lines 149 and
219, which say pydantic will reject invalid status strings) require update
to fail with a `ValidationError` on a status outside the enumeration. The
code instead stores the invalid string silently: `model_copy(update=...)`
and plain attribute assignment bypass pydantic validation. At the failing
input — an existing item `1` and the payload `{"status": "Done"}` — both
variants return a successfully updated item whose status is `"Done"`; the
file-backed variant even writes it to the backing file, whose next load
then fails. -/
theorem C2_failing_input_eval :
    TodoStatus.ofString? "Done" = none ∧
    ((InMemoryTodoStorage.mk
        [{ id := 1, name := "a", description := none, project := none,
           status := "Not Started", created_at := "t0", updated_at := "t0" }] 2).update
        1 { status := some "Done" } "t1").1 =
      some { id := 1, name := "a", description := none, project := none,
             status := "Done", created_at := "t0", updated_at := "t1" } ∧
    JsonTodoStorage.update
      [{ id := 1, name := "a", description := none, project := none,
         status := "Not Started", created_at := "t0", updated_at := "t0" }] 1
      { status := some "Done" } "t1" =
      .ok (some { id := 1, name := "a", description := none, project := none,
                  status := "Done", created_at := "t0", updated_at := "t1" },
           [{ id := 1, name := "a", description := none, project := none,
              status := "Done", created_at := "t0", updated_at := "t1" }]) ∧
    JsonTodoStorage._load_todos
      [{ id := 1, name := "a", description := none, project := none,
         status := "Done", created_at := "t0", updated_at := "t1" }] =
      .error ("ValidationError: invalid status " ++ "Done") :=
  ⟨rfl, rfl, rfl, rfl⟩

/-! ### C3: which fields update applies -/

/-- C3 counterexample: the claim says null-valued payload entries are
ignored and that `id` and `createdAt` are never changed by update. At the
concrete input — an item `1` with a description, and the payload
`{"id": 99, "description": None, "created_at": "t9"}` — both variants
return (and store) an item whose id is `99`, whose description has been
wiped to null, and whose creation timestamp is `"t9"`. -/
theorem C3_counterexample :
    ((InMemoryTodoStorage.mk
        [{ id := 1, name := "a", description := some "d", project := none,
           status := "Not Started", created_at := "t0", updated_at := "t0" }] 2).update
        1 { id := some 99, description := some none, created_at := some "t9" } "t1").1 =
      some { id := 99, name := "a", description := none, project := none,
             status := "Not Started", created_at := "t9", updated_at := "t1" } ∧
    JsonTodoStorage.update
      [{ id := 1, name := "a", description := some "d", project := none,
         status := "Not Started", created_at := "t0", updated_at := "t0" }] 1
      { id := some 99, description := some none, created_at := some "t9" } "t1" =
      .ok (some { id := 99, name := "a", description := none, project := none,
                  status := "Not Started", created_at := "t9", updated_at := "t1" },
           [{ id := 99, name := "a", description := none, project := none,
              status := "Not Started", created_at := "t9", updated_at := "t1" }]) :=
  ⟨rfl, rfl⟩

/-- C3 amended: on a successful match, update applies exactly the fields
whose keys are present in the payload — but a present key always
overwrites, so a present null for `description` or `project` is stored as
null, and `id` and `createdAt` are overwritten when the payload carries
keys for them. Fields with absent keys keep their previous values, and
`updatedAt` is refreshed to the operation time on every successful match,
in both variants. -/
theorem C3_amended (st : InMemoryTodoStorage) (file : List TodoRecord)
    (todos : List TodoItem) (i : Int) (u : UpdateData) (now : String)
    (t : TodoItem)
    (hmem : st.read_by_id i = some t)
    (hload : JsonTodoStorage._load_todos file = .ok todos)
    (hfind : todos.find? (fun x => x.id = i) = some t) :
    (∃ st', st.update i u now = (some (applyUpdate t u now), st')) ∧
    (∃ file', JsonTodoStorage.update file i u now =
        .ok (some (applyUpdate t u now), file')) ∧
    (applyUpdate t u now).id = u.id.getD t.id ∧
    (applyUpdate t u now).name = u.name.getD t.name ∧
    (applyUpdate t u now).description = u.description.getD t.description ∧
    (applyUpdate t u now).project = u.project.getD t.project ∧
    (applyUpdate t u now).status = u.status.getD t.status ∧
    (applyUpdate t u now).created_at = u.created_at.getD t.created_at ∧
    (applyUpdate t u now).updated_at = now := by
  refine ⟨?_, ?_, rfl, rfl, rfl, rfl, rfl, rfl, rfl⟩
  · obtain ⟨ts', h'⟩ := updateFirst_of_find? u now hmem
    exact ⟨{ st with todos := ts' }, by unfold InMemoryTodoStorage.update; rw [h']⟩
  · obtain ⟨ts', h'⟩ := updateFirst_of_find? u now hfind
    refine ⟨JsonTodoStorage._save_todos ts', ?_⟩
    unfold JsonTodoStorage.update JsonTodoStorage.read_all
    rw [hload]
    show (match updateFirst todos i u now with
      | some (item, todos') => pure (some item, JsonTodoStorage._save_todos todos')
      | none => pure (none, file)) = _
    rw [h']
    rfl

/-- C3 witness: the amended theorem applied at a one-item store and a
payload that renames the item and nulls its project. -/
theorem C3_witness :
    (∃ st', ((InMemoryTodoStorage.mk
        [{ id := 1, name := "a", description := none, project := some "w",
           status := "Not Started", created_at := "t0", updated_at := "t0" }] 2).update
        1 { name := some "b", project := some none } "t1") =
        (some (applyUpdate
          { id := 1, name := "a", description := none, project := some "w",
            status := "Not Started", created_at := "t0", updated_at := "t0" }
          { name := some "b", project := some none } "t1"), st')) ∧
    (∃ file', JsonTodoStorage.update
        [{ id := 1, name := "a", description := none, project := some "w",
           status := "Not Started", created_at := "t0", updated_at := "t0" }] 1
        { name := some "b", project := some none } "t1" =
        .ok (some (applyUpdate
          { id := 1, name := "a", description := none, project := some "w",
            status := "Not Started", created_at := "t0", updated_at := "t0" }
          { name := some "b", project := some none } "t1"), file')) ∧
    (applyUpdate
        { id := 1, name := "a", description := none, project := some "w",
          status := "Not Started", created_at := "t0", updated_at := "t0" }
        { name := some "b", project := some none } "t1").id =
      Option.getD none 1 ∧
    (applyUpdate
        { id := 1, name := "a", description := none, project := some "w",
          status := "Not Started", created_at := "t0", updated_at := "t0" }
        { name := some "b", project := some none } "t1").name =
      Option.getD (some "b") "a" ∧
    (applyUpdate
        { id := 1, name := "a", description := none, project := some "w",
          status := "Not Started", created_at := "t0", updated_at := "t0" }
        { name := some "b", project := some none } "t1").description =
      Option.getD none none ∧
    (applyUpdate
        { id := 1, name := "a", description := none, project := some "w",
          status := "Not Started", created_at := "t0", updated_at := "t0" }
        { name := some "b", project := some none } "t1").project =
      Option.getD (some none) (some "w") ∧
    (applyUpdate
        { id := 1, name := "a", description := none, project := some "w",
          status := "Not Started", created_at := "t0", updated_at := "t0" }
        { name := some "b", project := some none } "t1").status =
      Option.getD none "Not Started" ∧
    (applyUpdate
        { id := 1, name := "a", description := none, project := some "w",
          status := "Not Started", created_at := "t0", updated_at := "t0" }
        { name := some "b", project := some none } "t1").created_at =
      Option.getD none "t0" ∧
    (applyUpdate
        { id := 1, name := "a", description := none, project := some "w",
          status := "Not Started", created_at := "t0", updated_at := "t0" }
        { name := some "b", project := some none } "t1").updated_at = "t1" :=
  C3_amended _ _ _ 1 _ "t1" _ rfl rfl rfl

/-! ### C4: update with an empty payload -/

/-- C4 counterexample: the claim says an empty-payload update never changes
`updatedAt`. At the concrete input — an item `1` whose `updatedAt` is
`"t0"`, an empty payload, and operation time `"t1"` — both variants accept
the call and refresh `updatedAt` to `"t1"` even though no field was
supplied. -/
theorem C4_counterexample :
    ((InMemoryTodoStorage.mk
        [{ id := 1, name := "a", description := none, project := none,
           status := "Not Started", created_at := "t0", updated_at := "t0" }] 2).update
        1 {} "t1").1 =
      some { id := 1, name := "a", description := none, project := none,
             status := "Not Started", created_at := "t0", updated_at := "t1" } ∧
    ("t1" : String) ≠ "t0" ∧
    JsonTodoStorage.update
      [{ id := 1, name := "a", description := none, project := none,
         status := "Not Started", created_at := "t0", updated_at := "t0" }] 1
      {} "t1" =
      .ok (some { id := 1, name := "a", description := none, project := none,
                  status := "Not Started", created_at := "t0", updated_at := "t1" },
           [{ id := 1, name := "a", description := none, project := none,
              status := "Not Started", created_at := "t0", updated_at := "t1" }]) :=
  ⟨rfl, by decide, rfl⟩

/-- C4 amended: update with an empty payload on an existing id is accepted
(neither variant rejects it) and is a no-op on every field except
`updatedAt`, which is refreshed to the operation time — and every update
that matches an existing id, whatever its payload, refreshes `updatedAt`
to the operation time. -/
theorem C4_amended (st : InMemoryTodoStorage) (file : List TodoRecord)
    (todos : List TodoItem) (i : Int) (now : String) (t : TodoItem)
    (hmem : st.read_by_id i = some t)
    (hload : JsonTodoStorage._load_todos file = .ok todos)
    (hfind : todos.find? (fun x => x.id = i) = some t) :
    (∃ st', st.update i {} now = (some { t with updated_at := now }, st')) ∧
    (∃ file', JsonTodoStorage.update file i {} now =
        .ok (some { t with updated_at := now }, file')) ∧
    (∀ (j : Int) (u : UpdateData) (it : TodoItem) (st' : InMemoryTodoStorage),
      st.update j u now = (some it, st') → it.updated_at = now) ∧
    (∀ (j : Int) (u : UpdateData) (it : TodoItem) (file' : List TodoRecord),
      JsonTodoStorage.update file j u now = .ok (some it, file') →
        it.updated_at = now) := by
  refine ⟨?_, ?_, ?_, ?_⟩
  · obtain ⟨ts', h'⟩ := updateFirst_of_find? {} now hmem
    exact ⟨{ st with todos := ts' },
      by unfold InMemoryTodoStorage.update; rw [h']; rfl⟩
  · obtain ⟨ts', h'⟩ := updateFirst_of_find? {} now hfind
    refine ⟨JsonTodoStorage._save_todos ts', ?_⟩
    unfold JsonTodoStorage.update JsonTodoStorage.read_all
    rw [hload]
    show (match updateFirst todos i {} now with
      | some (item, todos') => pure (some item, JsonTodoStorage._save_todos todos')
      | none => pure (none, file)) = _
    rw [h']
    rfl
  · intro j u it st' h
    unfold InMemoryTodoStorage.update at h
    cases hrec : updateFirst st.todos j u now with
    | none => rw [hrec] at h; cases h
    | some p =>
        rw [hrec] at h
        have h1 : some p.1 = some it := congrArg Prod.fst h
        have h1' : p.1 = it := Option.some.inj h1
        have hrec' : updateFirst st.todos j u now = some (p.1, p.2) := by
          rw [hrec]
        rw [← h1']
        exact updateFirst_updated_at hrec'
  · intro j u it file' h
    unfold JsonTodoStorage.update JsonTodoStorage.read_all at h
    rw [hload] at h
    have h' : (match updateFirst todos j u now with
      | some (item, todos') =>
          (pure (some item, JsonTodoStorage._save_todos todos') :
            Except String (Option TodoItem × List TodoRecord))
      | none => pure (none, file)) = .ok (some it, file') := h
    cases hrec : updateFirst todos j u now with
    | none =>
        rw [hrec] at h'
        have := Except.ok.inj h'
        have h0 : (none : Option TodoItem) = some it := congrArg Prod.fst this
        cases h0
    | some p =>
        rw [hrec] at h'
        have := Except.ok.inj h'
        have h1 : some p.1 = some it := congrArg Prod.fst this
        have h1' : p.1 = it := Option.some.inj h1
        have hrec' : updateFirst todos j u now = some (p.1, p.2) := by
          rw [hrec]
        rw [← h1']
        exact updateFirst_updated_at hrec'

/-- C4 witness: the amended theorem applied at a one-item store with
operation time `"t1"`. -/
theorem C4_witness :
    (∃ st', ((InMemoryTodoStorage.mk
        [{ id := 1, name := "a", description := none, project := none,
           status := "Not Started", created_at := "t0", updated_at := "t0" }] 2).update
        1 {} "t1") =
      (some { id := 1, name := "a", description := none, project := none,
              status := "Not Started", created_at := "t0", updated_at := "t1" }, st')) ∧
    (∃ file', JsonTodoStorage.update
        [{ id := 1, name := "a", description := none, project := none,
           status := "Not Started", created_at := "t0", updated_at := "t0" }] 1
        {} "t1" =
      .ok (some { id := 1, name := "a", description := none, project := none,
                  status := "Not Started", created_at := "t0", updated_at := "t1" }, file')) :=
  ⟨(C4_amended (InMemoryTodoStorage.mk
      [{ id := 1, name := "a", description := none, project := none,
         status := "Not Started", created_at := "t0", updated_at := "t0" }] 2)
      [{ id := 1, name := "a", description := none, project := none,
         status := "Not Started", created_at := "t0", updated_at := "t0" }]
      [{ id := 1, name := "a", description := none, project := none,
         status := "Not Started", created_at := "t0", updated_at := "t0" }]
      1 "t1" _ rfl rfl rfl).1,
   (C4_amended (InMemoryTodoStorage.mk
      [{ id := 1, name := "a", description := none, project := none,
         status := "Not Started", created_at := "t0", updated_at := "t0" }] 2)
      [{ id := 1, name := "a", description := none, project := none,
         status := "Not Started", created_at := "t0", updated_at := "t0" }]
      [{ id := 1, name := "a", description := none, project := none,
         status := "Not Started", created_at := "t0", updated_at := "t0" }]
      1 "t1" _ rfl rfl rfl).2.1⟩

/-! ### C6: update on an absent id -/

/-- C6: for every id absent from the collection, update returns the
explicit not-found signal (`None`) rather than raising, and the backing
store is left completely unchanged — the in-memory state is returned as
it was and the file variant performs no write (the returned file is the
input file, untouched). -/
theorem C6_update_absent (st : InMemoryTodoStorage) (file : List TodoRecord)
    (todos : List TodoItem) (i : Int) (u : UpdateData) (now : String)
    (hmem : ∀ t ∈ st.todos, t.id ≠ i)
    (hload : JsonTodoStorage._load_todos file = .ok todos)
    (hjson : ∀ t ∈ todos, t.id ≠ i) :
    st.update i u now = (none, st) ∧
    JsonTodoStorage.update file i u now = .ok (none, file) := by
  constructor
  · unfold InMemoryTodoStorage.update
    rw [updateFirst_eq_none_iff.mpr hmem]
  · unfold JsonTodoStorage.update JsonTodoStorage.read_all
    rw [hload]
    show (match updateFirst todos i u now with
      | some (item, todos') => pure (some item, JsonTodoStorage._save_todos todos')
      | none => pure (none, file)) = _
    rw [updateFirst_eq_none_iff.mpr hjson]
    rfl

/-- C6 witness: updating id `99` on one-item stores holding only id `1`. -/
theorem C6_witness :
    (InMemoryTodoStorage.mk
        [{ id := 1, name := "a", description := none, project := none,
           status := "Not Started", created_at := "t0", updated_at := "t0" }] 2).update
        99 { status := some "Completed" } "t1" =
      (none, InMemoryTodoStorage.mk
        [{ id := 1, name := "a", description := none, project := none,
           status := "Not Started", created_at := "t0", updated_at := "t0" }] 2) ∧
    JsonTodoStorage.update
      [{ id := 1, name := "a", description := none, project := none,
         status := "Not Started", created_at := "t0", updated_at := "t0" }]
      99 { status := some "Completed" } "t1" =
      .ok (none,
        [{ id := 1, name := "a", description := none, project := none,
           status := "Not Started", created_at := "t0", updated_at := "t0" }]) :=
  C6_update_absent _ _ _ 99 { status := some "Completed" } "t1"
    (by decide) rfl (by decide)

/-! ### C7: create then immediate readById -/

theorem find?_append_singleton_of_ne {l : List TodoItem} {x : TodoItem} {i : Int}
    (hne : ∀ t ∈ l, t.id ≠ i) (hx : x.id = i) :
    (l ++ [x]).find? (fun t => t.id = i) = some x := by
  rw [List.find?_append, List.find?_eq_none.mpr (by intro t ht; simpa using hne t ht)]
  rw [Option.none_or]
  exact List.find?_cons_of_pos _ (by simpa using hx)

/-- C7 counterexample: the claim quantifies over every collection state,
but in the in-memory variant the reachable state built by
create("a"); update(1, `{"id": 2}`); create("b") holds an old item whose
id was raised to the counter value `2`, which create then assigns to the
new item; `read_by_id` returns the first match — the old item
(name `"a"`, created at `"t0"`) — not the item create returned
(name `"b"`), so create-then-readById does not yield the created item. -/
theorem C7_counterexample :
    (((InMemoryTodoStorage.init.create "a" none none "t0").2.update 1
        { id := some 2 } "t1").2.create "b" none none "t2").2.read_by_id
      ((((InMemoryTodoStorage.init.create "a" none none "t0").2.update 1
        { id := some 2 } "t1").2.create "b" none none "t2").1.id) =
      some { id := 2, name := "a", description := none, project := none,
             status := "Not Started", created_at := "t0",
             updated_at := "t1" } ∧
    ((((InMemoryTodoStorage.init.create "a" none none "t0").2.update 1
        { id := some 2 } "t1").2.create "b" none none "t2").1.name = "b") ∧
    (((InMemoryTodoStorage.init.create "a" none none "t0").2.update 1
        { id := some 2 } "t1").2.create "b" none none "t2").2.read_by_id
      ((((InMemoryTodoStorage.init.create "a" none none "t0").2.update 1
        { id := some 2 } "t1").2.create "b" none none "t2").1.id) ≠
      some ((((InMemoryTodoStorage.init.create "a" none none "t0").2.update 1
        { id := some 2 } "t1").2.create "b" none none "t2").1) := by
  refine ⟨rfl, rfl, ?_⟩
  decide

/-- C7 amended: for every loadable backing file, the file-backed variant
satisfies the claim outright: create then immediate readById yields the
created item, field for field, through the serialization round trip. The
in-memory variant satisfies it only on states where every live id is below
the counter — which holds on every state reachable without id-overwriting
update payloads, but can fail after one (see the counterexample), because
readById returns the first id match in insertion order. -/
theorem C7_create_then_read (st : InMemoryTodoStorage) (file : List TodoRecord)
    (todos : List TodoItem) (name : String) (description project : Option String)
    (now : String)
    (hctr : ∀ t ∈ st.todos, t.id < st.next_id)
    (hload : JsonTodoStorage._load_todos file = .ok todos) :
    (st.create name description project now).2.read_by_id
        (st.create name description project now).1.id =
      some (st.create name description project now).1 ∧
    ∃ item file', JsonTodoStorage.create file name description project now =
        .ok (item, file') ∧
      JsonTodoStorage.read_by_id file' item.id = .ok (some item) := by
  constructor
  · show ((st.create name description project now).2.todos).find?
        (fun t => t.id = (st.create name description project now).1.id) =
      some (st.create name description project now).1
    have h2 : (st.create name description project now).2.todos =
        st.todos ++ [(st.create name description project now).1] := rfl
    rw [h2]
    apply find?_append_singleton_of_ne
    · intro t ht
      have := hctr t ht
      show t.id ≠ st.next_id
      omega
    · rfl
  · refine ⟨{ id := JsonTodoStorage._get_next_id todos, name := name,
              description := description, project := project,
              status := TodoStatus.notStarted.value,
              created_at := now, updated_at := now },
            JsonTodoStorage._save_todos (todos ++
              [{ id := JsonTodoStorage._get_next_id todos, name := name,
                 description := description, project := project,
                 status := TodoStatus.notStarted.value,
                 created_at := now, updated_at := now }]), ?_, ?_⟩
    · unfold JsonTodoStorage.create
      rw [hload]
      rfl
    · unfold JsonTodoStorage.read_by_id JsonTodoStorage.read_all
      rw [JsonTodoStorage._load_todos_save]
      · show (pure ((todos ++ [_]).find? _) :
            Except String (Option TodoItem)) = _
        rw [find?_append_singleton_of_ne]
        · rfl
        · intro t ht
          have := JsonTodoStorage._get_next_id_gt ht
          show t.id ≠ JsonTodoStorage._get_next_id todos
          omega
        · rfl
      · intro t ht
        rcases List.mem_append.mp ht with hold | hnew
        · exact JsonTodoStorage._load_todos_statuses hload t hold
        · have : t = { id := JsonTodoStorage._get_next_id todos, name := name,
                       description := description, project := project,
                       status := TodoStatus.notStarted.value,
                       created_at := now, updated_at := now } := by
            simpa using hnew
          rw [this]
          rfl

/-- C7 witness: create on a loaded one-item store. -/
theorem C7_witness :
    ((InMemoryTodoStorage.mk
        [{ id := 1, name := "a", description := none, project := none,
           status := "Not Started", created_at := "t0", updated_at := "t0" }] 2).create
        "b" none (some "Work") "t1").2.read_by_id
        ((InMemoryTodoStorage.mk
          [{ id := 1, name := "a", description := none, project := none,
             status := "Not Started", created_at := "t0", updated_at := "t0" }] 2).create
          "b" none (some "Work") "t1").1.id =
      some ((InMemoryTodoStorage.mk
        [{ id := 1, name := "a", description := none, project := none,
           status := "Not Started", created_at := "t0", updated_at := "t0" }] 2).create
        "b" none (some "Work") "t1").1 ∧
    ∃ item file', JsonTodoStorage.create
        [{ id := 1, name := "a", description := none, project := none,
           status := "Not Started", created_at := "t0", updated_at := "t0" }]
        "b" none (some "Work") "t1" =
        .ok (item, file') ∧
      JsonTodoStorage.read_by_id file' item.id = .ok (some item) :=
  C7_create_then_read _ _
    [{ id := 1, name := "a", description := none, project := none,
       status := "Not Started", created_at := "t0", updated_at := "t0" }]
    "b" none (some "Work") "t1" (by decide) rfl

/-! ### Project filtering lemmas, C8 and C10 -/

theorem strLower_eq_empty_iff {s : String} : strLower s = "" ↔ s = "" := by
  cases s with
  | mk data =>
      cases data with
      | nil => exact ⟨fun _ => rfl, fun _ => rfl⟩
      | cons c cs =>
          constructor
          · intro h
            have h' : Char.toLower c :: List.map Char.toLower cs = [] :=
              congrArg String.data h
            exact absurd h' (List.cons_ne_nil _ _)
          · intro h
            have h' : c :: cs = [] := congrArg String.data h
            exact absurd h' (List.cons_ne_nil _ _)

theorem filterByProject_congr {todos : List TodoItem} {p1 p2 : String}
    (h : strLower p1 = strLower p2) :
    filterByProject todos p1 = filterByProject todos p2 := by
  unfold filterByProject
  apply List.filter_congr
  intro t _
  cases hproj : t.project with
  | none => simp [hproj]
  | some s => simp [hproj, h]

theorem mem_filterByProject {todos : List TodoItem} {p : String} {t : TodoItem}
    (h : t ∈ filterByProject todos p) :
    t ∈ todos ∧ ∃ s, t.project = some s ∧ s ≠ "" ∧ strLower s = strLower p := by
  unfold filterByProject at h
  have h' := List.mem_filter.mp h
  refine ⟨h'.1, ?_⟩
  have hb := h'.2
  cases hproj : t.project with
  | none => rw [hproj] at hb; cases hb
  | some s =>
      rw [hproj] at hb
      have hb' := (Bool.and_eq_true _ _).mp hb
      refine ⟨s, rfl, ?_, ?_⟩
      · intro hs
        rw [hs] at hb'
        simpa using hb'.1
      · simpa using hb'.2

theorem filterByProject_eq_nil {todos : List TodoItem} {p : String}
    (h : ∀ t ∈ todos, ∀ s, t.project = some s → s = "" ∨ strLower s ≠ strLower p) :
    filterByProject todos p = [] := by
  unfold filterByProject
  rw [List.filter_eq_nil_iff]
  intro t ht
  cases hproj : t.project with
  | none => simp [hproj]
  | some s =>
      rcases h t ht s hproj with hs | hs
      · simp [hproj, hs]
      · simp [hproj, hs]

/-- C8: readByProject matches the `project` field case-insensitively (two
query strings that agree after lower-casing give identical results), the
result is an order-preserving subsequence of the collection (insertion
order), every returned item carries a non-empty project that matches, an
unmatched query returns the empty sequence rather than an error, and the
file-backed variant returns exactly the same filter of its loaded
collection. -/
theorem C8_read_by_project (st : InMemoryTodoStorage) (file : List TodoRecord)
    (todos : List TodoItem) (p1 p2 : String)
    (hcase : strLower p1 = strLower p2)
    (hload : JsonTodoStorage._load_todos file = .ok todos) :
    st.read_by_project p1 = st.read_by_project p2 ∧
    List.Sublist (st.read_by_project p1) st.read_all ∧
    (∀ t ∈ st.read_by_project p1,
      ∃ s, t.project = some s ∧ s ≠ "" ∧ strLower s = strLower p1) ∧
    ((∀ t ∈ st.todos, ∀ s, t.project = some s → s = "" ∨ strLower s ≠ strLower p1) →
      st.read_by_project p1 = []) ∧
    JsonTodoStorage.read_by_project file p1 = .ok (filterByProject todos p1) ∧
    JsonTodoStorage.read_by_project file p2 = .ok (filterByProject todos p1) ∧
    List.Sublist (filterByProject todos p1) todos ∧
    (∀ t ∈ filterByProject todos p1,
      ∃ s, t.project = some s ∧ s ≠ "" ∧ strLower s = strLower p1) ∧
    ((∀ t ∈ todos, ∀ s, t.project = some s → s = "" ∨ strLower s ≠ strLower p1) →
      filterByProject todos p1 = []) := by
  refine ⟨filterByProject_congr hcase, List.filter_sublist _,
    fun t ht => (mem_filterByProject ht).2,
    fun h => filterByProject_eq_nil h, ?_, ?_, List.filter_sublist _,
    fun t ht => (mem_filterByProject ht).2,
    fun h => filterByProject_eq_nil h⟩
  · unfold JsonTodoStorage.read_by_project JsonTodoStorage.read_all
    rw [hload]
    rfl
  · unfold JsonTodoStorage.read_by_project JsonTodoStorage.read_all
    rw [hload]
    show Except.ok (filterByProject todos p2) = _
    rw [← filterByProject_congr hcase]

/-- C8 witness: queries `"work"` and `"WORK"` on a store holding one item
filed under `"Work"` and one with no project. -/
theorem C8_witness :
    (InMemoryTodoStorage.mk
        [{ id := 1, name := "a", description := none, project := some "Work",
           status := "Not Started", created_at := "t0", updated_at := "t0" },
         { id := 2, name := "b", description := none, project := none,
           status := "Not Started", created_at := "t0", updated_at := "t0" }] 3).read_by_project
        "work" =
      (InMemoryTodoStorage.mk
        [{ id := 1, name := "a", description := none, project := some "Work",
           status := "Not Started", created_at := "t0", updated_at := "t0" },
         { id := 2, name := "b", description := none, project := none,
           status := "Not Started", created_at := "t0", updated_at := "t0" }] 3).read_by_project
        "WORK" ∧
    JsonTodoStorage.read_by_project
        [{ id := 1, name := "a", description := none, project := some "Work",
           status := "Not Started", created_at := "t0", updated_at := "t0" }] "work" =
      .ok (filterByProject
        [{ id := 1, name := "a", description := none, project := some "Work",
           status := "Not Started", created_at := "t0", updated_at := "t0" }] "work") :=
  ⟨(C8_read_by_project
      (InMemoryTodoStorage.mk
        [{ id := 1, name := "a", description := none, project := some "Work",
           status := "Not Started", created_at := "t0", updated_at := "t0" },
         { id := 2, name := "b", description := none, project := none,
           status := "Not Started", created_at := "t0", updated_at := "t0" }] 3)
      [] [] "work" "WORK" (by decide) rfl).1,
   (C8_read_by_project
      (InMemoryTodoStorage.mk [] 1)
      [{ id := 1, name := "a", description := none, project := some "Work",
         status := "Not Started", created_at := "t0", updated_at := "t0" }]
      [{ id := 1, name := "a", description := none, project := some "Work",
         status := "Not Started", created_at := "t0", updated_at := "t0" }]
      "work" "WORK" (by decide) rfl).2.2.2.2.1⟩

/-- C10: readByProject treats an empty-string project like an unset one —
an item whose project is the empty string is never returned by any query
(the empty string is falsy in Python, like `None`), and querying for the
empty string itself always returns the empty sequence, in both variants. -/
theorem C10_empty_project (st : InMemoryTodoStorage) (file : List TodoRecord)
    (todos : List TodoItem) (p : String)
    (hload : JsonTodoStorage._load_todos file = .ok todos) :
    (∀ t : TodoItem, t.project = some "" → t ∉ st.read_by_project p) ∧
    st.read_by_project "" = [] ∧
    (∀ t : TodoItem, t.project = some "" →
      ∀ l, JsonTodoStorage.read_by_project file p = .ok l → t ∉ l) ∧
    JsonTodoStorage.read_by_project file "" = .ok [] := by
  have hnil : ∀ (ts : List TodoItem), filterByProject ts "" = [] := by
    intro ts
    apply filterByProject_eq_nil
    intro t _ s _
    by_cases hs : s = ""
    · exact Or.inl hs
    · refine Or.inr ?_
      intro heq
      exact hs (strLower_eq_empty_iff.mp heq)
  have hmem : ∀ (ts : List TodoItem) (q : String) (t : TodoItem),
      t.project = some "" → t ∉ filterByProject ts q := by
    intro ts q t hproj hin
    obtain ⟨-, s, hs, hne, -⟩ := mem_filterByProject hin
    rw [hproj] at hs
    exact hne (Option.some.inj hs).symm
  refine ⟨fun t ht => hmem st.todos p t ht, hnil st.todos, ?_, ?_⟩
  · intro t ht l hl
    have : l = filterByProject todos p := by
      unfold JsonTodoStorage.read_by_project JsonTodoStorage.read_all at hl
      rw [hload] at hl
      exact (Except.ok.inj hl).symm
    rw [this]
    exact hmem todos p t ht
  · unfold JsonTodoStorage.read_by_project JsonTodoStorage.read_all
    rw [hload]
    show Except.ok (filterByProject todos "") = _
    rw [hnil todos]

/-- C10 witness: a store holding an item whose project is the empty
string. -/
theorem C10_witness :
    (∀ t : TodoItem, t.project = some "" →
      t ∉ (InMemoryTodoStorage.mk
        [{ id := 1, name := "a", description := none, project := some "",
           status := "Not Started", created_at := "t0", updated_at := "t0" }] 2).read_by_project
        "Work") ∧
    (InMemoryTodoStorage.mk
        [{ id := 1, name := "a", description := none, project := some "",
           status := "Not Started", created_at := "t0", updated_at := "t0" }] 2).read_by_project
        "" = [] ∧
    (∀ t : TodoItem, t.project = some "" →
      ∀ l, JsonTodoStorage.read_by_project
        [{ id := 1, name := "a", description := none, project := some "",
           status := "Not Started", created_at := "t0", updated_at := "t0" }] "Work" =
          .ok l → t ∉ l) ∧
    JsonTodoStorage.read_by_project
      [{ id := 1, name := "a", description := none, project := some "",
         status := "Not Started", created_at := "t0", updated_at := "t0" }] "" =
      .ok [] :=
  C10_empty_project
    (InMemoryTodoStorage.mk
      [{ id := 1, name := "a", description := none, project := some "",
         status := "Not Started", created_at := "t0", updated_at := "t0" }] 2)
    [{ id := 1, name := "a", description := none, project := some "",
       status := "Not Started", created_at := "t0", updated_at := "t0" }]
    [{ id := 1, name := "a", description := none, project := some "",
       status := "Not Started", created_at := "t0", updated_at := "t0" }]
    "Work" rfl

/-! ### C9: delete -/

theorem length_filter_lt_iff (l : List TodoItem) (p : TodoItem → Bool) :
    (l.filter p).length < l.length ↔ ¬ (∀ a ∈ l, p a) := by
  have hle := List.length_filter_le p l
  constructor
  · intro h hall
    rw [List.filter_length_eq_length.mpr hall] at h
    omega
  · intro hnall
    have hne : (l.filter p).length ≠ l.length :=
      fun he => hnall (List.filter_length_eq_length.mp he)
    omega

theorem exists_id_iff_not_all {l : List TodoItem} {i : Int} :
    (¬ ∀ t ∈ l, (!(decide (t.id = i))) = true) ↔ ∃ t ∈ l, t.id = i := by
  constructor
  · intro h
    by_contra hc
    push_neg at hc
    exact h fun t ht => by simpa using hc t ht
  · rintro ⟨t, ht, hid⟩ hall
    have := hall t ht
    simp [hid] at this

theorem find?_filter_ne_eq_none (l : List TodoItem) (i : Int) :
    (l.filter fun t => !(t.id = i)).find? (fun t => t.id = i) = none := by
  rw [List.find?_eq_none]
  intro t ht
  have := (List.mem_filter.mp ht).2
  simpa using this

/-- C9: delete returns `true` exactly when an item with the id was present
(removing it — in the file variant, persisting the shrunken collection),
returns `false` without error when the id was absent (leaving the file
untouched), and in all cases an immediate readById with the same id yields
the absent signal. -/
theorem C9_delete (st : InMemoryTodoStorage) (file : List TodoRecord)
    (todos : List TodoItem) (i : Int)
    (hload : JsonTodoStorage._load_todos file = .ok todos) :
    ((st.delete i).1 = true ↔ ∃ t ∈ st.todos, t.id = i) ∧
    (st.delete i).2.read_by_id i = none ∧
    ∃ b file', JsonTodoStorage.delete file i = .ok (b, file') ∧
      (b = true ↔ ∃ t ∈ todos, t.id = i) ∧
      JsonTodoStorage.read_by_id file' i = .ok none := by
  refine ⟨?_, ?_, ?_⟩
  · show (decide ((st.todos.filter fun t => !(t.id = i)).length <
        st.todos.length) = true) ↔ _
    rw [decide_eq_true_iff, length_filter_lt_iff]
    exact exists_id_iff_not_all
  · show ((st.todos.filter fun t => !(t.id = i)).find? fun t => t.id = i) = none
    exact find?_filter_ne_eq_none st.todos i
  · by_cases hlen : (todos.filter fun t => !(t.id = i)).length = todos.length
    · refine ⟨false, file, ?_, ?_, ?_⟩
      · unfold JsonTodoStorage.delete
        rw [hload]
        show (if (todos.filter fun t => !(t.id = i)).length = todos.length
            then pure (false, file)
            else pure (true, JsonTodoStorage._save_todos
              (todos.filter fun t => !(t.id = i)))) = _
        rw [if_pos hlen]
        rfl
      · constructor
        · intro h
          exact absurd h (by simp)
        · rintro ⟨t, ht, hid⟩
          have := List.filter_length_eq_length.mp hlen t ht
          simp [hid] at this
      · unfold JsonTodoStorage.read_by_id JsonTodoStorage.read_all
        rw [hload]
        show (pure (todos.find? fun t => t.id = i) :
          Except String (Option TodoItem)) = _
        rw [List.find?_eq_none.mpr]
        · rfl
        · intro t ht
          have := List.filter_length_eq_length.mp hlen t ht
          simpa using this
    · refine ⟨true, JsonTodoStorage._save_todos
        (todos.filter fun t => !(t.id = i)), ?_, ?_, ?_⟩
      · unfold JsonTodoStorage.delete
        rw [hload]
        show (if (todos.filter fun t => !(t.id = i)).length = todos.length
            then pure (false, file)
            else pure (true, JsonTodoStorage._save_todos
              (todos.filter fun t => !(t.id = i)))) = _
        rw [if_neg hlen]
        rfl
      · constructor
        · intro _
          apply exists_id_iff_not_all.mp
          intro hall
          exact hlen (List.filter_length_eq_length.mpr hall)
        · intro _
          rfl
      · unfold JsonTodoStorage.read_by_id JsonTodoStorage.read_all
        rw [JsonTodoStorage._load_todos_save]
        · show (pure ((todos.filter fun t => !(t.id = i)).find?
              fun t => t.id = i) : Except String (Option TodoItem)) = _
          rw [find?_filter_ne_eq_none]
          rfl
        · intro t ht
          exact JsonTodoStorage._load_todos_statuses hload t
            (List.mem_filter.mp ht).1

/-- C9 witness: deleting the present id `1` from one-item stores. -/
theorem C9_witness :
    (((InMemoryTodoStorage.mk
        [{ id := 1, name := "a", description := none, project := none,
           status := "Not Started", created_at := "t0", updated_at := "t0" }] 2).delete
        1).1 = true ↔
      ∃ t ∈ [({ id := 1, name := "a", description := none, project := none,
                status := "Not Started", created_at := "t0",
                updated_at := "t0" } : TodoItem)], t.id = 1) ∧
    ((InMemoryTodoStorage.mk
        [{ id := 1, name := "a", description := none, project := none,
           status := "Not Started", created_at := "t0", updated_at := "t0" }] 2).delete
        1).2.read_by_id 1 = none ∧
    ∃ b file', JsonTodoStorage.delete
        [{ id := 1, name := "a", description := none, project := none,
           status := "Not Started", created_at := "t0", updated_at := "t0" }] 1 =
        .ok (b, file') ∧
      (b = true ↔
        ∃ t ∈ [({ id := 1, name := "a", description := none, project := none,
                  status := "Not Started", created_at := "t0",
                  updated_at := "t0" } : TodoItem)], t.id = 1) ∧
      JsonTodoStorage.read_by_id file' 1 = .ok none :=
  C9_delete
    (InMemoryTodoStorage.mk
      [{ id := 1, name := "a", description := none, project := none,
         status := "Not Started", created_at := "t0", updated_at := "t0" }] 2)
    [{ id := 1, name := "a", description := none, project := none,
       status := "Not Started", created_at := "t0", updated_at := "t0" }]
    [{ id := 1, name := "a", description := none, project := none,
       status := "Not Started", created_at := "t0", updated_at := "t0" }]
    1 rfl

/-! ### C5: uniqueness of live ids -/

theorem ids_save (todos : List TodoItem) :
    (JsonTodoStorage._save_todos todos).map TodoRecord.id = idsOf todos := by
  unfold JsonTodoStorage._save_todos idsOf
  rw [List.map_map]
  rfl

theorem idsOf_append (l1 l2 : List TodoItem) :
    idsOf (l1 ++ l2) = idsOf l1 ++ idsOf l2 :=
  List.map_append TodoItem.id l1 l2

theorem memInv_init : memInv InMemoryTodoStorage.init :=
  ⟨fun _ h => absurd h (List.not_mem_nil _), List.nodup_nil⟩

theorem memInv_execOp {st : InMemoryTodoStorage} {op : Op}
    (h : memInv st) (hop : op.noIdKey = true) : memInv (st.execOp op) := by
  obtain ⟨hbound, hnodup⟩ := h
  cases op with
  | createOp n d p now =>
      have hids : idsOf (st.execOp (.createOp n d p now)).todos =
          idsOf st.todos ++ [st.next_id] := idsOf_append st.todos _
      have hctr : (st.execOp (.createOp n d p now)).next_id = st.next_id + 1 := rfl
      constructor
      · intro j hj
        rw [hids] at hj
        rw [hctr]
        rcases List.mem_append.mp hj with hj | hj
        · have := hbound j hj
          omega
        · have : j = st.next_id := by simpa using hj
          omega
      · rw [hids, List.nodup_append]
        refine ⟨hnodup, List.nodup_singleton _, ?_⟩
        intro j hj hj'
        have hlt := hbound j hj
        have : j = st.next_id := by simpa using hj'
        omega
  | updateOp i u now =>
      have hid : u.id = none := Option.isNone_iff_eq_none.mp hop
      cases hrec : updateFirst st.todos i u now with
      | none =>
          have heq : st.execOp (.updateOp i u now) = st := by
            show (st.update i u now).2 = st
            unfold InMemoryTodoStorage.update
            rw [hrec]
          rw [heq]
          exact ⟨hbound, hnodup⟩
      | some q =>
          obtain ⟨it, ts'⟩ := q
          have heq : st.execOp (.updateOp i u now) =
              { st with todos := ts' } := by
            show (st.update i u now).2 = _
            unfold InMemoryTodoStorage.update
            rw [hrec]
          rw [heq]
          have hids : idsOf ts' = idsOf st.todos := updateFirst_idsOf hid hrec
          exact ⟨fun j hj => hbound j (hids ▸ hj), hids ▸ hnodup⟩
  | deleteOp i =>
      have hsub : List.Sublist (idsOf (st.execOp (.deleteOp i)).todos) (idsOf st.todos) :=
        List.Sublist.map TodoItem.id (List.filter_sublist st.todos)
      have hctr : (st.execOp (.deleteOp i)).next_id = st.next_id := rfl
      constructor
      · intro j hj
        rw [hctr]
        exact hbound j (hsub.subset hj)
      · exact hnodup.sublist hsub

theorem memInv_execOps {st : InMemoryTodoStorage} {ops : List Op}
    (h : memInv st) (hops : ∀ op ∈ ops, op.noIdKey = true) :
    memInv (st.execOps ops) := by
  induction ops generalizing st with
  | nil => exact h
  | cons op rest ih =>
      exact ih (memInv_execOp h (hops op (List.mem_cons_self _ _)))
        fun o ho => hops o (List.mem_cons_of_mem _ ho)

theorem jsonInv_execOp {file : List TodoRecord} {op : Op}
    (h : jsonInv file) (hop : op.noIdKey = true) : jsonInv (JsonTodoStorage.execOp file op) := by
  cases hload : JsonTodoStorage._load_todos file with
  | error e =>
      have heq : JsonTodoStorage.execOp file op = file := by
        cases op with
        | createOp n d p now =>
            show (match JsonTodoStorage.create file n d p now with
              | .ok r => r.2 | .error _ => file) = file
            unfold JsonTodoStorage.create
            rw [hload]
            rfl
        | updateOp i u now =>
            show (match JsonTodoStorage.update file i u now with
              | .ok r => r.2 | .error _ => file) = file
            unfold JsonTodoStorage.update JsonTodoStorage.read_all
            rw [hload]
            rfl
        | deleteOp i =>
            show (match JsonTodoStorage.delete file i with
              | .ok r => r.2 | .error _ => file) = file
            unfold JsonTodoStorage.delete
            rw [hload]
            rfl
      rw [heq]
      exact h
  | ok todos =>
      have hids : idsOf todos = file.map TodoRecord.id :=
        JsonTodoStorage.idsOf_load hload
      cases op with
      | createOp n d p now =>
          have heq : JsonTodoStorage.execOp file (.createOp n d p now) =
              JsonTodoStorage._save_todos (todos ++
                [{ id := JsonTodoStorage._get_next_id todos, name := n,
                   description := d, project := p,
                   status := TodoStatus.notStarted.value,
                   created_at := now, updated_at := now }]) := by
            show (match JsonTodoStorage.create file n d p now with
              | .ok r => r.2 | .error _ => file) = _
            unfold JsonTodoStorage.create
            rw [hload]
            rfl
          rw [heq]
          show ((JsonTodoStorage._save_todos _).map TodoRecord.id).Nodup
          rw [ids_save, idsOf_append]
          rw [List.nodup_append]
          refine ⟨hids ▸ h, List.nodup_singleton _, ?_⟩
          intro j hj hj'
          obtain ⟨t, ht, hid⟩ := List.mem_map.mp hj
          have hlt := JsonTodoStorage._get_next_id_gt ht
          have : j = JsonTodoStorage._get_next_id todos := by
            simpa [idsOf] using hj'
          omega
      | updateOp i u now =>
          have hidn : u.id = none := Option.isNone_iff_eq_none.mp hop
          cases hrec : updateFirst todos i u now with
          | none =>
              have heq : JsonTodoStorage.execOp file (.updateOp i u now) = file := by
                show (match JsonTodoStorage.update file i u now with
                  | .ok r => r.2 | .error _ => file) = file
                unfold JsonTodoStorage.update JsonTodoStorage.read_all
                rw [hload]
                show (match (match updateFirst todos i u now with
                  | some (item, todos') =>
                      (pure (some item, JsonTodoStorage._save_todos todos') :
                        Except String (Option TodoItem × List TodoRecord))
                  | none => pure (none, file)) with
                  | .ok r => r.2 | .error _ => file) = file
                rw [hrec]
                rfl
              rw [heq]
              exact h
          | some q =>
              obtain ⟨it, ts'⟩ := q
              have heq : JsonTodoStorage.execOp file (.updateOp i u now) =
                  JsonTodoStorage._save_todos ts' := by
                show (match JsonTodoStorage.update file i u now with
                  | .ok r => r.2 | .error _ => file) = _
                unfold JsonTodoStorage.update JsonTodoStorage.read_all
                rw [hload]
                show (match (match updateFirst todos i u now with
                  | some (item, todos') =>
                      (pure (some item, JsonTodoStorage._save_todos todos') :
                        Except String (Option TodoItem × List TodoRecord))
                  | none => pure (none, file)) with
                  | .ok r => r.2 | .error _ => file) = _
                rw [hrec]
                rfl
              rw [heq]
              show ((JsonTodoStorage._save_todos ts').map TodoRecord.id).Nodup
              rw [ids_save, updateFirst_idsOf hidn hrec, hids]
              exact h
      | deleteOp i =>
          by_cases hlen : (todos.filter fun t => !(t.id = i)).length = todos.length
          · have heq : JsonTodoStorage.execOp file (.deleteOp i) = file := by
              show (match JsonTodoStorage.delete file i with
                | .ok r => r.2 | .error _ => file) = file
              unfold JsonTodoStorage.delete
              rw [hload]
              show (match (if (todos.filter fun t => !(t.id = i)).length = todos.length
                then (pure (false, file) : Except String (Bool × List TodoRecord))
                else pure (true, JsonTodoStorage._save_todos
                  (todos.filter fun t => !(t.id = i)))) with
                | .ok r => r.2 | .error _ => file) = file
              rw [if_pos hlen]
              rfl
            rw [heq]
            exact h
          · have heq : JsonTodoStorage.execOp file (.deleteOp i) =
                JsonTodoStorage._save_todos (todos.filter fun t => !(t.id = i)) := by
              show (match JsonTodoStorage.delete file i with
                | .ok r => r.2 | .error _ => file) = _
              unfold JsonTodoStorage.delete
              rw [hload]
              show (match (if (todos.filter fun t => !(t.id = i)).length = todos.length
                then (pure (false, file) : Except String (Bool × List TodoRecord))
                else pure (true, JsonTodoStorage._save_todos
                  (todos.filter fun t => !(t.id = i)))) with
                | .ok r => r.2 | .error _ => file) = _
              rw [if_neg hlen]
              rfl
            rw [heq]
            show ((JsonTodoStorage._save_todos _).map TodoRecord.id).Nodup
            rw [ids_save]
            have hsub : List.Sublist (idsOf (todos.filter fun t => !(t.id = i))) (idsOf todos) :=
              List.Sublist.map TodoItem.id (List.filter_sublist todos)
            have h' : (idsOf todos).Nodup := by
              show (idsOf todos).Nodup
              rw [hids]
              exact h
            exact h'.sublist hsub

theorem jsonInv_execOps {file : List TodoRecord} {ops : List Op}
    (h : jsonInv file) (hops : ∀ op ∈ ops, op.noIdKey = true) :
    jsonInv (JsonTodoStorage.execOps file ops) := by
  induction ops generalizing file with
  | nil => exact h
  | cons op rest ih =>
      exact ih (jsonInv_execOp h (hops op (List.mem_cons_self _ _)))
        fun o ho => hops o (List.mem_cons_of_mem _ ho)

/-- C5 counterexample: the claim asserts pairwise-distinct ids in every
state reachable by create, update, and delete. Because update lets a
payload overwrite `id` (see C3), the three-call sequence
create, create, update(2, `{"id": 1}`) yields two live items both with id
`1`, in both variants. -/
theorem C5_counterexample :
    idsOf (InMemoryTodoStorage.init.execOps
      [Op.createOp "a" none none "t0", Op.createOp "b" none none "t1",
       Op.updateOp 2 { id := some 1 } "t2"]).todos = [1, 1] ∧
    ¬ (idsOf (InMemoryTodoStorage.init.execOps
      [Op.createOp "a" none none "t0", Op.createOp "b" none none "t1",
       Op.updateOp 2 { id := some 1 } "t2"]).todos).Nodup ∧
    (JsonTodoStorage.execOps []
      [Op.createOp "a" none none "t0", Op.createOp "b" none none "t1",
       Op.updateOp 2 { id := some 1 } "t2"]).map TodoRecord.id = [1, 1] ∧
    ¬ ((JsonTodoStorage.execOps []
      [Op.createOp "a" none none "t0", Op.createOp "b" none none "t1",
       Op.updateOp 2 { id := some 1 } "t2"]).map TodoRecord.id).Nodup := by
  have h1 : idsOf (InMemoryTodoStorage.init.execOps
      [Op.createOp "a" none none "t0", Op.createOp "b" none none "t1",
       Op.updateOp 2 { id := some 1 } "t2"]).todos = [1, 1] := rfl
  have h2 : (JsonTodoStorage.execOps []
      [Op.createOp "a" none none "t0", Op.createOp "b" none none "t1",
       Op.updateOp 2 { id := some 1 } "t2"]).map TodoRecord.id = [1, 1] := rfl
  refine ⟨h1, ?_, h2, ?_⟩
  · rw [h1]
    decide
  · rw [h2]
    decide

/-- C5 amended: in every collection state reachable from the empty
collection by create, delete, and update calls whose payloads carry no
`id` key, all live items have pairwise distinct ids, in both variants; the
file-backed variant assigns each new item id = (maximum existing id) + 1
(so `1` on an empty collection) and the in-memory variant assigns ids from
a strictly increasing counter, so create alone never produces a duplicate
id — but an update payload carrying an `id` key can (see the
counterexample). -/
theorem C5_amended (ops : List Op) (h : ∀ op ∈ ops, op.noIdKey = true) :
    (idsOf (InMemoryTodoStorage.init.execOps ops).todos).Nodup ∧
    ((JsonTodoStorage.execOps [] ops).map TodoRecord.id).Nodup ∧
    (∀ (st : InMemoryTodoStorage) (n : String) (d p : Option String)
        (now : String),
      (st.create n d p now).1.id = st.next_id ∧
      (st.create n d p now).2.next_id = st.next_id + 1) ∧
    (∀ (file : List TodoRecord) (todos : List TodoItem) (n : String)
        (d p : Option String) (now : String),
      JsonTodoStorage._load_todos file = .ok todos →
      ∃ file', JsonTodoStorage.create file n d p now =
        .ok ({ id := JsonTodoStorage.maxId todos + 1, name := n,
               description := d, project := p,
               status := TodoStatus.notStarted.value,
               created_at := now, updated_at := now }, file')) ∧
    JsonTodoStorage.maxId [] + 1 = 1 := by
  refine ⟨(memInv_execOps memInv_init h).2, jsonInv_execOps List.nodup_nil h,
    ?_, ?_, rfl⟩
  · intro st n d p now
    exact ⟨rfl, rfl⟩
  · intro file todos n d p now hload
    refine ⟨JsonTodoStorage._save_todos (todos ++
      [{ id := JsonTodoStorage.maxId todos + 1, name := n,
         description := d, project := p,
         status := TodoStatus.notStarted.value,
         created_at := now, updated_at := now }]), ?_⟩
    unfold JsonTodoStorage.create
    rw [hload]
    rfl

/-- C5 witness: a create/delete/create/update sequence whose update payload
carries no `id` key. -/
theorem C5_witness :
    (idsOf (InMemoryTodoStorage.init.execOps
      [Op.createOp "a" none none "t0", Op.deleteOp 1,
       Op.createOp "b" none none "t1",
       Op.updateOp 2 { status := some "Completed" } "t2"]).todos).Nodup ∧
    ((JsonTodoStorage.execOps []
      [Op.createOp "a" none none "t0", Op.deleteOp 1,
       Op.createOp "b" none none "t1",
       Op.updateOp 2 { status := some "Completed" } "t2"]).map TodoRecord.id).Nodup :=
  ⟨(C5_amended
      [Op.createOp "a" none none "t0", Op.deleteOp 1,
       Op.createOp "b" none none "t1",
       Op.updateOp 2 { status := some "Completed" } "t2"] (by decide)).1,
   (C5_amended
      [Op.createOp "a" none none "t0", Op.deleteOp 1,
       Op.createOp "b" none none "t1",
       Op.updateOp 2 { status := some "Completed" } "t2"] (by decide)).2.1⟩
